import Mathlib

/-!
Verification of the ledgeracio allowlist core (`src/approved_validators.rs`,
`src/bin/ledgeracio/nominator.rs`) against its specification.

Bytes are modelled as `Nat` (with explicit `< 256` bounds where overflow or
codec injectivity matters), file text as `List Char`, and fallible commands
as `Except String` / `RunResult`.  The `crate::parser` module implementing
`parse` (sign) and `inspect` is not part of the visible sources, so those
operations are modelled from the specification (sections 4.2-4.4 and 6),
as are the external substrate SS58 codec and the ed25519 primitive.
-/

namespace Ledgeracio

/-- Outcome of running a command: a value, a returned error, or a process
abort (Rust panic, e.g. a failed `assert_eq!`). -/
inductive RunResult (α : Type) where
  | ok (val : α)
  | err (msg : String)
  | crash (msg : String)
  deriving DecidableEq, Repr

/-- The network identifiers this program works with, mirroring the
`sp_core::crypto::Ss58AddressFormat` variants the code uses.  Per the spec
the Network data model is the closed enumeration
{Kusama, Polkadot, Custom(byte)}. -/
inductive Ss58AddressFormat where
  | kusamaAccount
  | polkadotAccount
  | custom (tag : Nat)
  deriving DecidableEq, Repr

/-- The wire byte of a network tag (`u8::from(network)` in sp-core:
Polkadot is 0, Kusama is 2, Custom carries its byte). -/
def networkByte : Ss58AddressFormat → Nat
  | .kusamaAccount => 2
  | .polkadotAccount => 0
  | .custom b => b

/-- `secret[23].try_into().unwrap_or_else(|()| Ss58AddressFormat::Custom(b))`:
a byte is resolved to a named network when registered, else wrapped in
`Custom`. -/
def byteToNetwork (b : Nat) : Ss58AddressFormat :=
  if b = 2 then .kusamaAccount
  else if b = 0 then .polkadotAccount
  else .custom b

/-- Lowercase display name of a network, as used in error messages
(`format!("{}", network)`). -/
def networkDisplay : Ss58AddressFormat → String
  | .kusamaAccount => "kusama"
  | .polkadotAccount => "polkadot"
  | .custom b => toString b

/-- The capitalized human name used in the public key file; the source
treats any network other than Kusama/Polkadot as unreachable there. -/
def humanNameOpt : Ss58AddressFormat → Option String
  | .kusamaAccount => some "Kusama"
  | .polkadotAccount => some "Polkadot"
  | .custom _ => none

/-- Case-insensitive resolution of a network name
(`Ss58AddressFormat::try_from(&*name.to_ascii_lowercase())`). -/
def networkFromName (name : List Char) : Option Ss58AddressFormat :=
  if name = "kusama".data then some .kusamaAccount
  else if name = "polkadot".data then some .polkadotAccount
  else none

/-- UTF-8 bytes of an ASCII string. -/
def strBytes (s : String) : List Nat := s.data.map Char.toNat

/-- `const MAGIC: &[u8] = b"Ledgeracio Secret Key"`. -/
def MAGIC : List Nat := strBytes "Ledgeracio Secret Key"

/-- `u16::to_le_bytes`. -/
def u16le (n : Nat) : List Nat := [n % 256, n / 256 % 256]

/-- `u16::from_le_bytes` on a two-byte slice. -/
def u16fromLe : List Nat → Nat
  | [a, b] => a + 256 * b
  | _ => 0

/-- `u32::to_le_bytes`. -/
def u32le (n : Nat) : List Nat :=
  [n % 256, n / 256 % 256, n / 65536 % 256, n / 16777216 % 256]

/-- The observable effect of the `write` helper: the open flags and mode
bits it passes to `OpenOptions`, and the bytes it writes. -/
structure FileWrite where
  mode : Nat
  writeFlag : Bool
  createFlag : Bool
  truncateFlag : Bool
  content : List Nat
  deriving DecidableEq, Repr

/-- `fn write(buf: &[&[u8]], path: &Path)`: opens the target with
`mode(0o400).write(true).create(true).truncate(true)` and writes each
buffer in order. -/
def write (buf : List (List Nat)) : FileWrite :=
  { mode := 256
    writeFlag := true
    createFlag := true
    truncateFlag := true
    content := buf.flatten }

/-- Splits a file name at its last dot: `some (stem, ext)` when a dot
exists, where `stem` is everything before the last dot and `ext`
everything after it. -/
def extSplit : List Char → Option (List Char × List Char)
  | [] => none
  | c :: rest =>
    match extSplit rest with
    | some (s, e) => some (c :: s, e)
    | none => if c = '.' then some ([], rest) else none

/-- Rust `Path::extension` on a plain file name: the part after the last
dot, unless the name has no dot or starts with its only dot. -/
def extension (f : List Char) : Option (List Char) :=
  match extSplit f with
  | some (stem, e) => if stem = [] then none else some e
  | none => none

/-- Rust `Path::file_stem` on a plain file name. -/
def fileStem (f : List Char) : List Char :=
  match extSplit f with
  | some (stem, _) => if stem = [] then f else stem
  | none => f

/-- Rust `Path::set_extension` with a non-empty extension. -/
def setExtension (f e : List Char) : List Char :=
  fileStem f ++ '.' :: e

/-- An ed25519 keypair: 32-byte secret scalar and 32-byte public key. -/
structure Keypair where
  secret : List Nat
  public : List Nat
  deriving DecidableEq, Repr

/-- Index of a character in a list, if present. -/
def charIdx (c : Char) : List Char → Option Nat
  | [] => none
  | x :: xs => if x = c then some 0 else (charIdx c xs).map (· + 1)

/-- The standard base64 alphabet. -/
def base64Alphabet : List Char :=
  "ABCDEFGHIJKLMNOPQRSTUVWXYZabcdefghijklmnopqrstuvwxyz0123456789+/".data

/-- Character of a 6-bit group. -/
def b64char (n : Nat) : Char := base64Alphabet.getD n 'A'

/-- Value of a base64 character. -/
def b64val (c : Char) : Option Nat := charIdx c base64Alphabet

/-- `base64::encode` with the STANDARD (padded) configuration. -/
def base64Encode : List Nat → List Char
  | [] => []
  | [a] => [b64char (a / 4 % 64), b64char (a % 4 * 16), '=', '=']
  | [a, b] =>
    [b64char (a / 4 % 64), b64char (a % 4 * 16 + b / 16 % 16),
     b64char (b % 16 * 4), '=']
  | a :: b :: c :: rest =>
    b64char (a / 4 % 64) :: b64char (a % 4 * 16 + b / 16 % 16) ::
    b64char (b % 16 * 4 + c / 64 % 4) :: b64char (c % 64) ::
    base64Encode rest

/-- Strict standard base64 decoding (padded, trailing bits must be zero),
as performed by `base64::decode_config_slice` with `base64::STANDARD`. -/
def base64Decode : List Char → Option (List Nat)
  | [] => some []
  | a :: b :: c :: d :: rest =>
    match b64val a, b64val b with
    | some va, some vb =>
      if c = '=' then
        if d = '=' && rest.isEmpty then
          if vb % 16 = 0 then some [va * 4 + vb / 16] else none
        else none
      else
        match b64val c with
        | some vc =>
          if d = '=' then
            if rest.isEmpty then
              if vc % 4 = 0 then
                some [va * 4 + vb / 16, vb % 16 * 16 + vc / 4]
              else none
            else none
          else
            match b64val d with
            | some vd =>
              (base64Decode rest).map
                (fun r => (va * 4 + vb / 16) :: (vb % 16 * 16 + vc / 4) ::
                          (vc % 4 * 64 + vd) :: r)
            | none => none
        | none => none
    | _, _ => none
  | _ => none

/-- Lowercase hexadecimal digit characters. -/
def hexAlphabet : List Char := "0123456789abcdef".data

/-- Hex digit of a 4-bit value. -/
def hexDigit (n : Nat) : Char := hexAlphabet.getD n '0'

/-- Value of a hex digit character. -/
def hexVal (c : Char) : Option Nat := charIdx c hexAlphabet

/-- Two hex characters of a byte. -/
def byteHex (b : Nat) : List Char := [hexDigit (b / 16 % 16), hexDigit (b % 16)]

/-- Parses a string of hex-digit pairs back into bytes. -/
def hexPairs : List Char → Option (List Nat)
  | [] => some []
  | a :: b :: rest =>
    match hexVal a, hexVal b with
    | some hi, some lo => (hexPairs rest).map (fun r => (hi * 16 + lo) :: r)
    | _, _ => none
  | [_] => none

/-- Modelled from the spec: the SS58 address codec lives in the external
substrate crate and the repository's `parser` module is not under the
visible sources.  Section 4.2 requires only that an address is a textual
encoding embedding a network tag together with the 32-byte account
identifier, and that rendering (section 4.4 step 6) inverts parsing.
This model renders the network byte followed by the identifier bytes in
hexadecimal. -/
def ss58Render (network : Nat) (id : List Nat) : List Char :=
  byteHex network ++ (id.map byteHex).flatten

/-- Modelled from the spec: parsing a network-prefixed address text,
"extracting both the 32-byte account identifier and the network tag
embedded in the encoding" (section 4.2); inverse of `ss58Render`. -/
def ss58Parse (line : List Char) : Option (Nat × List Nat) :=
  match hexPairs line with
  | some (tag :: idNats) => if idNats.length = 32 then some (tag, idNats) else none
  | _ => none

/-- Leading/trailing-whitespace trim of one line (Rust `str::trim`). -/
def trimChars (l : List Char) : List Char :=
  ((l.dropWhile Char.isWhitespace).reverse.dropWhile Char.isWhitespace).reverse

/-- Modelled from the spec (section 4.2, the `parser` module is not under
the visible sources): canonicalize the lines of a textual allowlist.
Trims each line; skips it when empty or when its first character is a
semicolon or a hash; otherwise parses it as a network-prefixed address,
requiring the embedded tag to equal the expected network; appends
identifiers in file order.  `lineNo` is the 1-based number of the first
line, used in error messages. -/
def canonGo (network : Ss58AddressFormat) : Nat → List (List Char) →
    Except String (List (List Nat))
  | _, [] => Except.ok []
  | lineNo, line :: rest =>
    let t := trimChars line
    if t.isEmpty || t.headD ' ' = ';' || t.headD ' ' = '#' then
      canonGo network (lineNo + 1) rest
    else
      match ss58Parse t with
      | none =>
        Except.error ("invalid address on line " ++ toString lineNo ++ ": " ++
          String.mk t)
      | some (tag, id) =>
        if tag = networkByte network then
          (canonGo network (lineNo + 1) rest).map (fun r => id :: r)
        else
          Except.error ("network mismatch on line " ++ toString lineNo ++
            ": expected network " ++ toString (networkByte network) ++
            ", got network " ++ toString tag)

/-- Canonicalization of a textual allowlist, given as its list of lines. -/
def canonicalizeLines (lines : List (List Char)) (network : Ss58AddressFormat) :
    Except String (List (List Nat)) :=
  canonGo network 1 lines

/-- Modelled from the spec: ed25519 deterministic signing (section 4.3,
"same input always yields the same signature"), implemented by the
external ed25519 crate.  The signature is a 64-byte value determined by
the message and the key; verification with the matching public key
recomputes and compares it. -/
def mkSig (publicKey msg : List Nat) : List Nat :=
  (publicKey ++ msg ++ List.replicate 64 0).take 64

/-- Modelled from the spec (section 4.3 and the artifact layout of
section 6; the `parser` module is not under the visible sources): the
unsigned payload is the network tag byte, the 4-byte little-endian nonce,
then each 32-byte identifier in list order; the 64-byte signature over it
is appended. -/
def signAllowlist (ids : List (List Nat)) (network : Ss58AddressFormat)
    (nonce : Nat) (kp : Keypair) : List Nat :=
  let unsigned := networkByte network :: (u32le nonce ++ ids.flatten)
  unsigned ++ mkSig kp.public unsigned

/-- Splits a byte sequence into consecutive 32-byte chunks. -/
def chunks32 : List Nat → List (List Nat)
  | [] => []
  | x :: xs => ((x :: xs).take 32) :: chunks32 ((x :: xs).drop 32)
  termination_by l => l.length
  decreasing_by simp; omega

/-- Modelled from the spec (section 4.4; the `parser` module is not under
the visible sources): inspect a signed artifact.  Checks the minimum
length, the network tag, the signature over the unsigned payload, and
that the body splits evenly into 32-byte identifiers; renders each
identifier back into address text, in order. -/
def inspectArtifact (a : List Nat) (network : Ss58AddressFormat)
    (publicKey : List Nat) : Except String (List (List Char)) :=
  if a.length < 69 then
    Except.error "truncated allowlist artifact"
  else if a.headD 0 ≠ networkByte network then
    Except.error ("network mismatch: expected network " ++
      toString (networkByte network) ++ ", got network " ++ toString (a.headD 0))
  else
    let unsigned := a.take (a.length - 64)
    let sig := a.drop (a.length - 64)
    if sig ≠ mkSig publicKey unsigned then
      Except.error "invalid signature"
    else
      let body := unsigned.drop 5
      if body.length % 32 ≠ 0 then
        Except.error "malformed payload"
      else
        Except.ok ((chunks32 body).map (ss58Render (networkByte network)))

/-- The validation and signing sequence of the `ACL::Sign` command, after
the textual allowlist and the secret key file have been read.  Mirrors
`approved_validators.rs` lines 170-204: length, magic, version and
network checks on the 88-byte secret key file, then key extraction and
the (spec-modelled) parse-and-sign step producing the signed artifact
bytes. -/
def signCmd (fileLines : List (List Char)) (secret : List Nat)
    (network : Ss58AddressFormat) (nonce : Nat) : Except String (List Nat) :=
  if secret.length ≠ 88 then
    Except.error ("Ledgeracio secret keys are 88 bytes, not " ++
      toString secret.length)
  else if secret.take 21 ≠ MAGIC then
    Except.error "Not a Ledgeracio secret key ― wrong magic number"
  else if (secret.drop 21).take 2 ≠ [1, 0] then
    Except.error ("Expected a version 1 secret key, but got version " ++
      toString (u16fromLe ((secret.drop 21).take 2)))
  else if secret.getD 23 0 ≠ networkByte network then
    Except.error ("Expected a key for network " ++ networkDisplay network ++
      ", but got a key for network " ++
      networkDisplay (byteToNetwork (secret.getD 23 0)))
  else
    let kp : Keypair := ⟨(secret.drop 24).take 32, secret.drop 56⟩
    (canonicalizeLines fileLines network).map
      (fun ids => signAllowlist ids network nonce kp)

/-- The `ACL::GenKey` command, given the generated keypair.  Mirrors
`approved_validators.rs` lines 129-163: rejects a target filename that
already has an extension; otherwise renders the public key file text,
writes it to the `.pub` path, then writes the secret key file layout to
the `.sec` path.  Returns the path/write pairs in order.  A network
other than Kusama or Polkadot is `unreachable!` in the source. -/
def genKeyCmd (file : List Char) (network : Ss58AddressFormat) (kp : Keypair) :
    RunResult (List (List Char × FileWrite)) :=
  if (extension file).isSome then
    RunResult.err ("please provide a filename with no extension, not " ++
      String.mk file)
  else
    match humanNameOpt network with
    | none => RunResult.crash "internal error: entered unreachable code: should have been rejected earlier"
    | some name =>
      let pubPath := setExtension file "pub".data
      let publicText :=
        strBytes "Ledgeracio version 1 public key for network " ++
        strBytes name ++ [10] ++ (base64Encode kp.public).map Char.toNat ++ [10]
      let pubWrite := write [publicText]
      let secPath := setExtension pubPath "sec".data
      let secWrite := write [MAGIC, u16le 1, [networkByte network], kp.secret,
        kp.public]
      RunResult.ok [(pubPath, pubWrite), (secPath, secWrite)]

/-- Consumes a literal from the front of the text, mirroring one regex
literal segment. -/
def dropLit : List Char → List Char → Option (List Char)
  | [], s => some s
  | _ :: _, [] => none
  | a :: p, b :: s => if a = b then dropLit p s else none

/-- Matching of the public key file against the anchored regex
`Ledgeracio version ([1-9][0-9]*) public key for network ([[:alpha:]]+)
\n([[:alnum:]/+]+=)\n` used by `ACL::Inspect`; returns the three capture
groups. -/
def pkCaptures (text : List Char) : Option (List Char × List Char × List Char) :=
  match dropLit ("Ledgeracio version ".data) text with
  | none => none
  | some r1 =>
    let ds := r1.takeWhile Char.isDigit
    let r2 := r1.dropWhile Char.isDigit
    if ds.isEmpty || ds.headD '0' = '0' then none
    else
      match dropLit (" public key for network ".data) r2 with
      | none => none
      | some r3 =>
        let alpha := r3.takeWhile Char.isAlpha
        let r4 := r3.dropWhile Char.isAlpha
        if alpha.isEmpty then none
        else
          match r4 with
          | '\n' :: r5 =>
            let b64 := r5.takeWhile fun c => c.isAlphanum || c = '/' || c = '+'
            let r6 := r5.dropWhile fun c => c.isAlphanum || c = '/' || c = '+'
            if b64.isEmpty then none
            else
              match r6 with
              | '=' :: '\n' :: [] => some (ds, alpha, b64 ++ ['='])
              | _ => none
          | _ => none

/-- The public-key-file reading sequence of the `ACL::Inspect` command,
mirroring `approved_validators.rs` lines 214-234: regex match, version
check, network name resolution, then base64 decoding into a fixed
32-byte buffer whose written length is compared to 32 with
`assert_eq!` — a failed assertion is a Rust panic, modelled as `crash`. -/
def readPublicKeyFile (text : List Char) :
    RunResult (Ss58AddressFormat × List Nat) :=
  match pkCaptures text with
  | none => RunResult.err "Invalid public key"
  | some (version, networkName, data) =>
    if version ≠ ['1'] then
      RunResult.err "Only version 1 keys are supported"
    else
      match networkFromName (networkName.map Char.toLower) with
      | none =>
        RunResult.err ("invalid network " ++ String.mk networkName)
      | some network =>
        match base64Decode data with
        | none => RunResult.err "base64 decode error"
        | some bytes =>
          if bytes.length > 32 then
            RunResult.crash "output slice is too small"
          else if bytes.length ≠ 32 then
            RunResult.crash "assertion failed"
          else
            RunResult.ok (network, bytes)

/-- The network-mismatch error text shared by the nominate commands. -/
def networkMismatchMsg (address : List Nat) (provided : Ss58AddressFormat)
    (network : Ss58AddressFormat) : String :=
  "Network mismatch: address " ++ String.mk (ss58Render (networkByte provided) address) ++
  " is for network " ++ networkDisplay provided ++
  ", but you asked to use network " ++ networkDisplay network

/-- Per-address network validation loop of `Nominator::Nominate`
(`nominator.rs` lines 178-191): each address must carry the session
network's tag, else the command fails naming both networks. -/
def checkSet (network : Ss58AddressFormat) :
    List (List Nat × Nat) → Except String (List (List Nat))
  | [] => Except.ok []
  | (address, provided) :: rest =>
    if provided ≠ networkByte network then
      Except.error (networkMismatchMsg address (byteToNetwork provided) network)
    else
      (checkSet network rest).map (fun r => address :: r)

/-- The `Nominator::Nominate` command after the signer has been obtained
(`nominator.rs` lines 172-192): an empty validator set is rejected
before anything is submitted; otherwise the set is network-checked and
the resulting account list is what gets submitted in the nominate
transaction. -/
def nominateCmd (set : List (List Nat × Nat)) (network : Ss58AddressFormat) :
    Except String (List (List Nat)) :=
  if set.isEmpty then
    Except.error "Validator set cannot be empty"
  else
    checkSet network set

/-- A concrete keypair used in witnesses. -/
def demoKp : Keypair := ⟨List.replicate 32 3, List.replicate 32 9⟩

/-- A concrete two-entry canonical allowlist used in witnesses. -/
def demoList : List (List Nat) := [List.replicate 32 0, List.replicate 32 255]

/-- The permission claimed by the specification for the secret key file:
owner-only read and write, nothing for group or other (mode 0o600). -/
def specOwnerOnlyReadWrite (mode : Nat) : Prop := mode = 384

theorem magic_len : MAGIC.length = 21 := by decide

theorem mkSig_length (publicKey msg : List Nat) : (mkSig publicKey msg).length = 64 := by
  simp [mkSig]
  omega

theorem extSplit_eq_none (e : List Char) (he : '.' ∉ e) : extSplit e = none := by
  induction e with
  | nil => rfl
  | cons c rest ih =>
    have hc : c ≠ '.' := fun h => he (h ▸ List.mem_cons_self c rest)
    have hr : '.' ∉ rest := fun h => he (List.mem_cons_of_mem c h)
    simp [extSplit, ih hr, hc]

theorem extSplit_append_dot (f e : List Char) (he : '.' ∉ e) :
    extSplit (f ++ '.' :: e) = some (f, e) := by
  induction f with
  | nil => simp [extSplit, extSplit_eq_none e he]
  | cons c rest ih => simp [extSplit, ih]

theorem fileStem_of_ext_none (f : List Char) (hf : extension f = none) :
    fileStem f = f := by
  unfold extension at hf
  unfold fileStem
  match h : extSplit f with
  | none => simp
  | some (stem, e) =>
    rw [h] at hf
    by_cases hs : stem = []
    · simp [hs]
    · simp [hs] at hf

/-- C2: a secret-key input whose byte length is not 88 makes Sign fail
with the bad-key-length error naming the expected length 88 and the
actual length, producing no signed artifact. -/
theorem sign_rejects_bad_key_length (fileLines : List (List Char))
    (secret : List Nat) (network : Ss58AddressFormat) (nonce : Nat)
    (h : secret.length ≠ 88) :
    signCmd fileLines secret network nonce =
      Except.error ("Ledgeracio secret keys are 88 bytes, not " ++
        toString secret.length) := by
  simp [signCmd, h]

theorem sign_rejects_bad_key_length_witness :
    signCmd [] (List.replicate 87 0) Ss58AddressFormat.kusamaAccount 5 =
      Except.error "Ledgeracio secret keys are 88 bytes, not 87" :=
  sign_rejects_bad_key_length [] (List.replicate 87 0)
    Ss58AddressFormat.kusamaAccount 5 (by decide)

/-- C7: an 88-byte secret key with the correct magic whose little-endian
version field is not 1 makes Sign fail with the unsupported-version
error naming the version value found. -/
theorem sign_rejects_unsupported_version (fileLines : List (List Char))
    (secret : List Nat) (network : Ss58AddressFormat) (nonce : Nat)
    (h88 : secret.length = 88) (hmagic : secret.take 21 = MAGIC)
    (hver : u16fromLe ((secret.drop 21).take 2) ≠ 1) :
    signCmd fileLines secret network nonce =
      Except.error ("Expected a version 1 secret key, but got version " ++
        toString (u16fromLe ((secret.drop 21).take 2))) := by
  have hv2 : (secret.drop 21).take 2 ≠ [1, 0] := by
    intro hcon
    rw [hcon] at hver
    exact hver rfl
  simp [signCmd, h88, hmagic, hv2]

theorem sign_rejects_unsupported_version_witness :
    signCmd [] (MAGIC ++ [3, 0] ++ List.replicate 65 0)
      Ss58AddressFormat.kusamaAccount 5 =
      Except.error "Expected a version 1 secret key, but got version 3" :=
  sign_rejects_unsupported_version [] (MAGIC ++ [3, 0] ++ List.replicate 65 0)
    Ss58AddressFormat.kusamaAccount 5 (by decide) (by decide) (by decide)

/-- C4: when the network tag byte stored in the secret-key file differs
from the caller-supplied network, Sign fails with the network-mismatch
error naming the expected and the found network, and no artifact is
produced. -/
theorem sign_rejects_network_mismatch (fileLines : List (List Char))
    (secret : List Nat) (network : Ss58AddressFormat) (nonce : Nat)
    (h88 : secret.length = 88) (hmagic : secret.take 21 = MAGIC)
    (hver : (secret.drop 21).take 2 = [1, 0])
    (hnet : secret.getD 23 0 ≠ networkByte network) :
    signCmd fileLines secret network nonce =
      Except.error ("Expected a key for network " ++ networkDisplay network ++
        ", but got a key for network " ++
        networkDisplay (byteToNetwork (secret.getD 23 0))) := by
  simp only [signCmd, ne_eq, h88, hmagic, hver]
  rw [if_neg (by simp), if_neg (by simp), if_neg (by simp), if_pos hnet]

theorem sign_rejects_network_mismatch_witness :
    signCmd [] (MAGIC ++ [1, 0] ++ [0] ++ List.replicate 64 7)
      Ss58AddressFormat.kusamaAccount 5 =
      Except.error
        "Expected a key for network kusama, but got a key for network polkadot" :=
  sign_rejects_network_mismatch [] (MAGIC ++ [1, 0] ++ [0] ++ List.replicate 64 7)
    Ss58AddressFormat.kusamaAccount 5 (by decide) (by decide) (by decide)
    (by decide)

/-- C10: `Nominator::Nominate` with an empty validator set fails with the
error "Validator set cannot be empty"; the error result means no
nomination transaction payload is produced, so nothing is submitted. -/
theorem nominate_rejects_empty_set (network : Ss58AddressFormat) :
    nominateCmd [] network = Except.error "Validator set cannot be empty" := rfl

/-- C5 counterexample: the `write` helper opens the target with mode
0o400 (decimal 256) — the owner write bit is clear — so the claimed
owner-only read AND write permission (mode 0o600, decimal 384) does not
hold, already at the concrete buffer list [[1, 2, 3]]. -/
theorem write_mode_not_owner_read_write :
    (write [[1, 2, 3]]).mode = 256 ∧
    ¬ specOwnerOnlyReadWrite (write [[1, 2, 3]]).mode := by
  constructor
  · rfl
  · intro hcon
    simp [specOwnerOnlyReadWrite, write] at hcon

/-- C5 amended: the `write` helper used for the secret-key file writes
the concatenation of the given buffers (for GenKey, the SecretKeyFile
layout) to a file it creates and truncates in place, with owner-only
READ permission — mode 0o400: the owner permission digit is 4
(read-only) and the group and other digits are 0. -/
theorem write_secret_key_file_permissions (buf : List (List Nat)) :
    (write buf).content = buf.flatten ∧
    (write buf).mode = 256 ∧
    (write buf).mode / 64 % 8 = 4 ∧
    (write buf).mode % 64 = 0 ∧
    (write buf).writeFlag = true ∧
    (write buf).createFlag = true ∧
    (write buf).truncateFlag = true := by
  simp [write]

/-- C9: GenKey rejects a target filename that already carries an
extension with a usage error naming the filename, writing nothing; with
no extension, the public key is written to the filename with `.pub`
appended and the secret key to the filename with `.sec` appended. -/
theorem genKey_extension_check (file : List Char) (network : Ss58AddressFormat)
    (kp : Keypair) :
    ((extension file).isSome →
      genKeyCmd file network kp =
        RunResult.err ("please provide a filename with no extension, not " ++
          String.mk file)) ∧
    (extension file = none → file ≠ [] →
      ∀ name, humanNameOpt network = some name →
        ∃ w1 w2, genKeyCmd file network kp =
          RunResult.ok [(file ++ '.' :: "pub".data, w1),
                        (file ++ '.' :: "sec".data, w2)]) := by
  constructor
  · intro h
    unfold genKeyCmd
    rw [if_pos h]
  · intro hext hfile name hname
    have hpub : setExtension file ("pub".data) = file ++ '.' :: "pub".data := by
      unfold setExtension
      rw [fileStem_of_ext_none file hext]
    have hsec : setExtension (file ++ '.' :: "pub".data) ("sec".data) =
        file ++ '.' :: "sec".data := by
      unfold setExtension fileStem
      rw [extSplit_append_dot file ("pub".data) (by decide)]
      simp [hfile]
    refine ⟨write [strBytes "Ledgeracio version 1 public key for network " ++
        strBytes name ++ [10] ++ (base64Encode kp.public).map Char.toNat ++
        [10]],
      write [MAGIC, u16le 1, [networkByte network], kp.secret, kp.public], ?_⟩
    simp [genKeyCmd, hext, hname, hpub, hsec]

theorem genKey_extension_check_witness :
    genKeyCmd ("key.txt".data) Ss58AddressFormat.kusamaAccount demoKp =
      RunResult.err "please provide a filename with no extension, not key.txt" ∧
    ∃ w1 w2, genKeyCmd ("key".data) Ss58AddressFormat.kusamaAccount demoKp =
      RunResult.ok [("key.pub".data, w1), ("key.sec".data, w2)] :=
  ⟨(genKey_extension_check ("key.txt".data) Ss58AddressFormat.kusamaAccount
      demoKp).1 (by decide),
   (genKey_extension_check ("key".data) Ss58AddressFormat.kusamaAccount
      demoKp).2 (by decide) (by decide) "Kusama" (by decide)⟩

/-- C3: the secret-key file written by GenKey is 88 bytes: the 21-byte
magic "Ledgeracio Secret Key", the version 1 as two little-endian bytes,
the network tag byte, the 32-byte secret key, then the 32-byte public
key, in that order. -/
theorem genKey_secret_file_layout (file : List Char)
    (network : Ss58AddressFormat) (kp : Keypair) (name : String)
    (hext : extension file = none) (hname : humanNameOpt network = some name)
    (hsec : kp.secret.length = 32) (hpub : kp.public.length = 32) :
    ∃ p1 w1 p2 w2, genKeyCmd file network kp =
      RunResult.ok [(p1, w1), (p2, w2)] ∧
      w2.content.length = 88 ∧
      w2.content.take 21 = strBytes "Ledgeracio Secret Key" ∧
      (w2.content.drop 21).take 2 = [1, 0] ∧
      u16fromLe ((w2.content.drop 21).take 2) = 1 ∧
      (w2.content.drop 23).take 1 = [networkByte network] ∧
      (w2.content.drop 24).take 32 = kp.secret ∧
      w2.content.drop 56 = kp.public := by
  have hc : (write [MAGIC, u16le 1, [networkByte network], kp.secret,
      kp.public]).content =
      MAGIC ++ ([1, 0] ++ ([networkByte network] ++
        (kp.secret ++ kp.public))) := by
    simp [write, u16le]
  refine ⟨setExtension file ("pub".data),
    write [strBytes "Ledgeracio version 1 public key for network " ++
      strBytes name ++ [10] ++ (base64Encode kp.public).map Char.toNat ++
      [10]],
    setExtension (setExtension file ("pub".data)) ("sec".data),
    write [MAGIC, u16le 1, [networkByte network], kp.secret, kp.public],
    ?_, ?_, ?_, ?_, ?_, ?_, ?_, ?_⟩
  · simp [genKeyCmd, hext, hname]
  · rw [hc]
    simp [magic_len, hsec, hpub]
  · rw [hc]
    exact List.take_left' magic_len
  · rw [hc, List.drop_left' magic_len]
    rfl
  · rw [hc, List.drop_left' magic_len]
    rfl
  · rw [hc]
    have h23 : (MAGIC ++ ([1, 0] ++ ([networkByte network] ++
        (kp.secret ++ kp.public)))).drop 23 =
        [networkByte network] ++ (kp.secret ++ kp.public) := by
      rw [show (23 : Nat) = 21 + 2 by rfl, ← List.drop_drop,
        List.drop_left' magic_len]
      rfl
    rw [h23]
    rfl
  · rw [hc]
    have h24 : (MAGIC ++ ([1, 0] ++ ([networkByte network] ++
        (kp.secret ++ kp.public)))).drop 24 = kp.secret ++ kp.public := by
      rw [show (24 : Nat) = 21 + 3 by rfl, ← List.drop_drop,
        List.drop_left' magic_len]
      rfl
    rw [h24]
    exact List.take_left' hsec
  · rw [hc]
    have h24 : (MAGIC ++ ([1, 0] ++ ([networkByte network] ++
        (kp.secret ++ kp.public)))).drop 24 = kp.secret ++ kp.public := by
      rw [show (24 : Nat) = 21 + 3 by rfl, ← List.drop_drop,
        List.drop_left' magic_len]
      rfl
    rw [show (56 : Nat) = 24 + 32 by rfl, ← List.drop_drop, h24,
      List.drop_left' hsec]

theorem genKey_secret_file_layout_witness :
    ∃ p1 w1 p2 w2,
      genKeyCmd ("key".data) Ss58AddressFormat.kusamaAccount demoKp =
        RunResult.ok [(p1, w1), (p2, w2)] ∧
      w2.content.length = 88 ∧
      w2.content.take 21 = strBytes "Ledgeracio Secret Key" ∧
      (w2.content.drop 21).take 2 = [1, 0] ∧
      u16fromLe ((w2.content.drop 21).take 2) = 1 ∧
      (w2.content.drop 23).take 1 =
        [networkByte Ss58AddressFormat.kusamaAccount] ∧
      (w2.content.drop 24).take 32 = demoKp.secret ∧
      w2.content.drop 56 = demoKp.public :=
  genKey_secret_file_layout ("key".data) Ss58AddressFormat.kusamaAccount
    demoKp "Kusama" (by decide) (by decide) (by decide) (by decide)

/-- C8: the public-key file written by GenKey is the line
"Ledgeracio version 1 public key for network <Name>" followed by a
newline, the base64 encoding of the 32-byte public key, and a trailing
newline, where <Name> is the human name of the bound network. -/
theorem genKey_public_file_layout (file : List Char)
    (network : Ss58AddressFormat) (kp : Keypair) (name : String)
    (hext : extension file = none) (hname : humanNameOpt network = some name)
    (hpub : kp.public.length = 32) :
    ∃ p1 w1 rest, genKeyCmd file network kp =
      RunResult.ok ((p1, w1) :: rest) ∧
      w1.content =
        strBytes "Ledgeracio version 1 public key for network " ++
        strBytes name ++ [10] ++ (base64Encode kp.public).map Char.toNat ++
        [10] := by
  refine ⟨setExtension file ("pub".data),
    write [strBytes "Ledgeracio version 1 public key for network " ++
      strBytes name ++ [10] ++ (base64Encode kp.public).map Char.toNat ++
      [10]],
    [(setExtension (setExtension file ("pub".data)) ("sec".data),
      write [MAGIC, u16le 1, [networkByte network], kp.secret, kp.public])],
    ?_, ?_⟩
  · simp [genKeyCmd, hext, hname]
  · simp [write]

theorem genKey_public_file_layout_witness :
    ∃ p1 w1 rest,
      genKeyCmd ("key".data) Ss58AddressFormat.kusamaAccount demoKp =
        RunResult.ok ((p1, w1) :: rest) ∧
      w1.content =
        strBytes "Ledgeracio version 1 public key for network " ++
        strBytes "Kusama" ++ [10] ++
        (base64Encode demoKp.public).map Char.toNat ++ [10] :=
  genKey_public_file_layout ("key".data) Ss58AddressFormat.kusamaAccount
    demoKp "Kusama" (by decide) (by decide) (by decide)

/-- C6: evaluation at the failing input.  The public-key file
"Ledgeracio version 1 public key for network Kusama" with payload
"AAE=" matches the Inspect grammar, and its base64 payload decodes to
the 2 bytes [0, 1] rather than 32; `assert_eq!` then panics (a process
abort), instead of the invalid-key-encoding error result the
specification requires. -/
theorem inspect_pubkey_crashes_on_short_payload :
    readPublicKeyFile
      ("Ledgeracio version 1 public key for network Kusama\nAAE=\n".data) =
      RunResult.crash "assertion failed" := by
  decide

theorem dropWhile_eq_self_of_none (p : Char → Bool) (l : List Char)
    (h : ∀ c ∈ l, p c = false) : l.dropWhile p = l := by
  cases l with
  | nil => rfl
  | cons a rest => simp [List.dropWhile, h a (List.mem_cons_self a rest)]

theorem trimChars_eq_self (l : List Char)
    (h : ∀ c ∈ l, c.isWhitespace = false) : trimChars l = l := by
  unfold trimChars
  rw [dropWhile_eq_self_of_none _ _ h]
  rw [dropWhile_eq_self_of_none _ _ (fun c hc => h c (List.mem_reverse.mp hc))]
  exact List.reverse_reverse l

theorem hexDigit_mem (n : Nat) : hexDigit n ∈ hexAlphabet := by
  rcases Nat.lt_or_ge n 16 with h | h
  · revert h
    revert n
    decide
  · have : hexDigit n = '0' := by
      unfold hexDigit
      rw [List.getD_eq_getElem?_getD, List.getElem?_eq_none (by simpa [hexAlphabet] using h)]
      rfl
    rw [this]
    decide

theorem hexAlphabet_char_shape (c : Char) (h : c ∈ hexAlphabet) :
    c.isWhitespace = false ∧ c ≠ ';' ∧ c ≠ '#' := by
  revert h
  revert c
  decide

theorem ss58Render_chars (tag : Nat) (id : List Nat) (c : Char)
    (h : c ∈ ss58Render tag id) : c ∈ hexAlphabet := by
  simp only [ss58Render, byteHex, List.mem_append, List.mem_flatten,
    List.mem_map, List.mem_cons, List.not_mem_nil, or_false] at h
  rcases h with (h | h) | ⟨l, ⟨b, hb, heq⟩, hc⟩
  · exact h ▸ hexDigit_mem _
  · exact h ▸ hexDigit_mem _
  · subst heq
    simp only [List.mem_cons, List.not_mem_nil, or_false] at hc
    rcases hc with hc | hc
    · exact hc ▸ hexDigit_mem _
    · exact hc ▸ hexDigit_mem _

theorem hexVal_hexDigit : ∀ n < 16, hexVal (hexDigit n) = some n := by
  decide

theorem hexPairs_byteHex (b : Nat) (rest : List Char) (hb : b < 256) :
    hexPairs (byteHex b ++ rest) = (hexPairs rest).map (fun r => b :: r) := by
  have h1 : b / 16 % 16 < 16 := Nat.mod_lt _ (by omega)
  have h2 : b % 16 < 16 := Nat.mod_lt _ (by omega)
  simp only [byteHex, List.cons_append, List.nil_append, hexPairs,
    hexVal_hexDigit _ h1, hexVal_hexDigit _ h2]
  have hd : b / 16 < 16 := by omega
  have hv : b / 16 % 16 * 16 + b % 16 = b := by
    rw [Nat.mod_eq_of_lt hd]
    omega
  rw [hv]
  simp

theorem hexPairs_flatten (id : List Nat) (h : ∀ b ∈ id, b < 256) :
    hexPairs ((id.map byteHex).flatten) = some id := by
  induction id with
  | nil => rfl
  | cons b rest ih =>
    simp only [List.map_cons, List.flatten_cons]
    rw [hexPairs_byteHex b _ (h b (List.mem_cons_self b rest))]
    rw [ih (fun x hx => h x (List.mem_cons_of_mem b hx))]
    rfl

theorem ss58Parse_render (tag : Nat) (id : List Nat) (ht : tag < 256)
    (hlen : id.length = 32) (hb : ∀ b ∈ id, b < 256) :
    ss58Parse (ss58Render tag id) = some (tag, id) := by
  unfold ss58Parse ss58Render
  rw [hexPairs_byteHex tag _ ht, hexPairs_flatten id hb]
  simp [hlen]

theorem canonGo_render (network : Ss58AddressFormat) (L : List (List Nat))
    (hids : ∀ id ∈ L, id.length = 32 ∧ ∀ b ∈ id, b < 256)
    (hnet : networkByte network < 256) :
    ∀ n, canonGo network n (L.map (ss58Render (networkByte network))) =
      Except.ok L := by
  induction L with
  | nil => intro n; rfl
  | cons id rest ih =>
    intro n
    have hid := hids id (List.mem_cons_self id rest)
    have hrest : ∀ i ∈ rest, i.length = 32 ∧ ∀ b ∈ i, b < 256 :=
      fun i hi => hids i (List.mem_cons_of_mem id hi)
    have hchars : ∀ c ∈ ss58Render (networkByte network) id,
        c.isWhitespace = false :=
      fun c hc => (hexAlphabet_char_shape c (ss58Render_chars _ _ c hc)).1
    have htrim : trimChars (ss58Render (networkByte network) id) =
        ss58Render (networkByte network) id :=
      trimChars_eq_self _ hchars
    have hne : (ss58Render (networkByte network) id).isEmpty = false := by
      simp [ss58Render, byteHex]
    have hhead : (ss58Render (networkByte network) id).headD ' ' =
        hexDigit (networkByte network / 16 % 16) := by
      simp [ss58Render, byteHex]
    have hshape := hexAlphabet_char_shape _ (hexDigit_mem (networkByte network / 16 % 16))
    simp only [List.map_cons, canonGo, htrim, hne, hhead]
    rw [if_neg (by simp [hshape.2.1, hshape.2.2])]
    rw [ss58Parse_render _ _ hnet hid.1 hid.2]
    simp only [if_pos rfl]
    rw [ih hrest (n + 1)]
    rfl

theorem flatten_length_of_32 (L : List (List Nat))
    (h : ∀ id ∈ L, id.length = 32) : L.flatten.length = 32 * L.length := by
  induction L with
  | nil => rfl
  | cons id rest ih =>
    simp only [List.flatten_cons, List.length_append, List.length_cons,
      h id (List.mem_cons_self id rest),
      ih (fun i hi => h i (List.mem_cons_of_mem id hi))]
    ring

theorem chunks32_flatten (L : List (List Nat))
    (h : ∀ id ∈ L, id.length = 32) : chunks32 L.flatten = L := by
  induction L with
  | nil =>
    simp only [List.flatten_nil]
    rw [chunks32]
  | cons id rest ih =>
    have hid : id.length = 32 := h id (List.mem_cons_self id rest)
    have hrest := ih (fun i hi => h i (List.mem_cons_of_mem id hi))
    cases hi : id with
    | nil => rw [hi] at hid; simp at hid
    | cons x xs =>
      rw [hi] at hid
      simp only [List.flatten_cons, hi, List.cons_append]
      rw [chunks32]
      rw [show x :: (xs ++ rest.flatten) = (x :: xs) ++ rest.flatten from rfl]
      rw [List.take_left' hid, List.drop_left' hid, hrest]

theorem inspect_sign (L : List (List Nat)) (network : Ss58AddressFormat)
    (nonce : Nat) (kp : Keypair)
    (hids : ∀ id ∈ L, id.length = 32 ∧ ∀ b ∈ id, b < 256) :
    inspectArtifact (signAllowlist L network nonce kp) network kp.public =
      Except.ok (L.map (ss58Render (networkByte network))) := by
  have hflat : L.flatten.length = 32 * L.length :=
    flatten_length_of_32 L (fun i hi => (hids i hi).1)
  have hunsigned :
      (networkByte network :: (u32le nonce ++ L.flatten)).length =
        5 + 32 * L.length := by
    have hu32 : (u32le nonce).length = 4 := rfl
    simp only [List.length_cons, List.length_append, hu32]
    omega
  have hsig := mkSig_length kp.public
    (networkByte network :: (u32le nonce ++ L.flatten))
  have hlen : (signAllowlist L network nonce kp).length =
      69 + 32 * L.length := by
    simp only [signAllowlist, List.length_append, hunsigned, hsig]
    omega
  unfold inspectArtifact
  rw [if_neg (by omega)]
  have hhead : (signAllowlist L network nonce kp).headD 0 =
      networkByte network := by
    simp [signAllowlist]
  rw [hhead, if_neg (by simp)]
  have hcut : (signAllowlist L network nonce kp).length - 64 =
      (networkByte network :: (u32le nonce ++ L.flatten)).length := by
    rw [hlen, hunsigned]
    omega
  have htake : (signAllowlist L network nonce kp).take
      ((signAllowlist L network nonce kp).length - 64) =
      networkByte network :: (u32le nonce ++ L.flatten) := by
    rw [hcut]
    exact List.take_left _ _
  have hdrop : (signAllowlist L network nonce kp).drop
      ((signAllowlist L network nonce kp).length - 64) =
      mkSig kp.public (networkByte network :: (u32le nonce ++ L.flatten)) := by
    rw [hcut]
    exact List.drop_left _ _
  simp only [signAllowlist] at htake hdrop ⊢
  rw [htake, hdrop, if_neg (by simp)]
  have hbody : (networkByte network :: (u32le nonce ++ L.flatten)).drop 5 =
      L.flatten := by
    simp [u32le]
  rw [hbody]
  rw [if_neg (by simp [hflat])]
  rw [chunks32_flatten L (fun i hi => (hids i hi).1)]

/-- C1: round-trip.  For a canonical allowlist whose entries are 32-byte
identifiers, canonicalizing the rendered line output of Inspect applied
to the artifact produced by Sign — with the same network and the
signing keypair's public key — yields exactly the original allowlist in
the original order. -/
theorem allowlist_roundtrip (L : List (List Nat))
    (network : Ss58AddressFormat) (nonce : Nat) (kp : Keypair)
    (hids : ∀ id ∈ L, id.length = 32 ∧ ∀ b ∈ id, b < 256)
    (hnet : networkByte network < 256) :
    (inspectArtifact (signAllowlist L network nonce kp) network
      kp.public).bind (fun ls => canonicalizeLines ls network) =
      Except.ok L := by
  rw [inspect_sign L network nonce kp hids]
  show canonicalizeLines (L.map (ss58Render (networkByte network))) network =
    Except.ok L
  exact canonGo_render network L hids hnet 1

theorem allowlist_roundtrip_witness :
    (inspectArtifact (signAllowlist demoList Ss58AddressFormat.kusamaAccount 1
      demoKp) Ss58AddressFormat.kusamaAccount demoKp.public).bind
      (fun ls => canonicalizeLines ls Ss58AddressFormat.kusamaAccount) =
      Except.ok demoList :=
  allowlist_roundtrip demoList Ss58AddressFormat.kusamaAccount 1 demoKp
    (by decide) (by decide)

end Ledgeracio
